import Mathlib

/-!
Verification development for the ProFel skill-matching engine.

This file gives a shallow embedding of the fuzzy skill-matching core of the
repository:

* `src/web-version/frontend/src/services/matchService.js` —
  `calculateMatch`, `calculateCombinedMatch`, `performLocalMatch`,
  `calculateStringSimilarity`, `commonPrefixLength`, `commonSuffixLength`,
  `extractSkills`, `extractTechKeywords`;
* `src/web-version/frontend/src/pages/Home.js` —
  `calculateLocalMatch`, `extractProfileSkills`, `extractJobSkills`.

JavaScript numbers are modelled as exact rationals (`ℚ`); the one place the
original can produce `NaN` (the division `matchedImportance/totalImportance`
with a zero denominator in `calculateLocalMatch`) is modelled by an
`Option ℤ` result, `none` standing for `NaN`.  Strings are Lean `String`s
and `toLowerCase` is modelled on the ASCII range (the only range the
source's regular expressions `[a-z]`/`[A-Z]` inspect).  Missing object
fields (`undefined`) are modelled with `Option`; the JavaScript truthiness
tests and `x || default` expressions of the source are modelled explicitly
(`jsStrTruthy`, `jsOrQ`), including the quirk that the number `0` is falsy.
-/

set_option allowUnsafeReducibility true in
attribute [semireducible] Rat.add Rat.mul Rat.inv

/-! ## JavaScript string and number primitives -/

/-- ASCII model of JavaScript `String.prototype.toLowerCase` on one character:
characters `A`–`Z` (codes 65–90) are shifted to `a`–`z`; everything else is
unchanged. -/
def jsCharLower (c : Char) : Char :=
  if 65 ≤ c.toNat ∧ c.toNat ≤ 90 then Char.ofNat (c.toNat + 32) else c

/-- ASCII model of JavaScript `str.toLowerCase()`. -/
def jsToLowerStr (s : String) : String :=
  ⟨s.data.map jsCharLower⟩

/-- Character class `[a-z]` of the source's regular expressions. -/
def isLowerAZ (c : Char) : Bool :=
  decide (97 ≤ c.toNat) && decide (c.toNat ≤ 122)

/-- Character class `[A-Z]` of the source's regular expressions. -/
def isUpperAZ (c : Char) : Bool :=
  decide (65 ≤ c.toNat) && decide (c.toNat ≤ 90)

/-- JavaScript `s.includes(t)`: `t` occurs contiguously in `s`.  As in
JavaScript, every string includes the empty string. -/
def jsIncludes (s t : String) : Bool :=
  decide (t.data <:+: s.data)

/-- JavaScript `s.trim()`: strip leading and trailing whitespace. -/
def jsTrim (s : String) : String :=
  ⟨((s.data.dropWhile Char.isWhitespace).reverse.dropWhile Char.isWhitespace).reverse⟩

/-- Insertion-order deduplication with a "seen" accumulator (the behaviour
of JavaScript `Set` insertion). -/
def jsDedupAux : List String → List String → List String
  | [], _ => []
  | x :: xs, seen =>
    if seen.contains x then jsDedupAux xs seen else x :: jsDedupAux xs (x :: seen)

/-- Deduplication by `[...new Set(list)]`: exact (case-sensitive) equality,
keeping the first occurrence of each element, preserving insertion order. -/
def jsDedup (l : List String) : List String :=
  jsDedupAux l []

/-- JavaScript `x || d` on an optional number: `undefined` and `0` (both
falsy) give the default. -/
def jsOrQ (x : Option ℚ) (d : ℚ) : ℚ :=
  match x with
  | some v => if v = 0 then d else v
  | none => d

/-- JavaScript truthiness of an optional string: `undefined` and `""` are
falsy. -/
def jsStrTruthy (x : Option String) : Bool :=
  match x with
  | some s => s ≠ ""
  | none => false

/-- JavaScript `Math.round` on a (non-`NaN`) number: round half away from
zero; all rounded values in this development are nonnegative, where it is
`⌊q + 1/2⌋`. -/
def jsRound (q : ℚ) : ℤ :=
  (q + 1/2).floor

/-- Core of a JavaScript `split` on a character-class regular expression such
as `/\s+/`: cut the character list at each maximal run of delimiter
characters.  A leading or trailing delimiter run produces an empty token, as
in JavaScript (`" a ".split(/\s+/)` is `["", "a", ""]`). -/
def jsSplitOnAux (p : Char → Bool) : List Char → List Char → Bool → List (List Char)
  | [], acc, _ => [acc.reverse]
  | c :: rest, acc, lastDelim =>
    if p c then
      if lastDelim then jsSplitOnAux p rest acc lastDelim
      else acc.reverse :: jsSplitOnAux p rest [] true
    else jsSplitOnAux p rest (c :: acc) false

/-- See `jsSplitOn`. -/
def jsSplitOnCore (p : Char → Bool) (cs : List Char) : List (List Char) :=
  jsSplitOnAux p cs [] false

/-- String-level wrapper for `jsSplitOnCore`. -/
def jsSplitOn (p : Char → Bool) (s : String) : List String :=
  (jsSplitOnCore p s.data).map (fun cs => ⟨cs⟩)

/-- The delimiter class `[\s\-_.,;:!?()[\]{}|\\/"']` of
`extractTechKeywords`'s tokenizing regular expression. -/
def isDelimChar (c : Char) : Bool :=
  c.isWhitespace || c == '-' || c == '_' || c == '.' || c == ',' || c == ';' ||
  c == ':' || c == '!' || c == '?' || c == '(' || c == ')' || c == '[' ||
  c == ']' || c == '\x7b' || c == '\x7d' || c == '|' || c == '\\' ||
  c == '/' || c == '"' || c == '\''

/-! ## Shape heuristics of `extractTechKeywords`

The four regular expression tests of the source.  Because the character
classes `[a-z]`, `[A-Z]`, `.`, `-` are pairwise disjoint, each regular
expression test is equivalent to the first-match characterization used
below. -/

/-- Test `/^[a-z]+[A-Z][a-z]*/.test(word)`: the word starts with one or more
lowercase letters followed by an uppercase letter (the trailing `[a-z]*` is
vacuous for an unanchored-end test). -/
def camelTest (w : String) : Bool :=
  !(w.data.takeWhile isLowerAZ).isEmpty &&
    (match w.data.dropWhile isLowerAZ with
     | c :: _ => isUpperAZ c
     | [] => false)

/-- Test `/^[A-Z][a-z]+[A-Z]/.test(word)`: uppercase, then one or more lowercase,
then uppercase, at the start of the word. -/
def pascalTest (w : String) : Bool :=
  match w.data with
  | c :: rest =>
    isUpperAZ c && !(rest.takeWhile isLowerAZ).isEmpty &&
      (match rest.dropWhile isLowerAZ with
       | d :: _ => isUpperAZ d
       | [] => false)
  | [] => false

/-- Test `/\.[a-z]{1,4}$/.test(word)`: the word ends in a dot followed by one to
four lowercase letters. -/
def extTest (w : String) : Bool :=
  (List.range 4).any (fun i =>
    let rev := w.data.reverse
    decide ((rev.take (i+1)).length = i+1) && (rev.take (i+1)).all isLowerAZ &&
      decide (rev.get? (i+1) = some '.'))

/-- Test `/^[a-z]+\-[a-z]+$/.test(word)`: lowercase letters, one hyphen, lowercase
letters, spanning the whole word. -/
def hyphenTest (w : String) : Bool :=
  !(w.data.takeWhile isLowerAZ).isEmpty &&
    (match w.data.dropWhile isLowerAZ with
     | c :: post => decide (c = '-') && !post.isEmpty && post.all isLowerAZ
     | [] => false)

/-- The combined token filter of `extractTechKeywords` (the `word.length > 1`
guard applies to the camelCase and PascalCase tests only, as in the
source). -/
def techShapeTest (w : String) : Bool :=
  (decide (1 < w.length) && camelTest w) ||
  (decide (1 < w.length) && pascalTest w) ||
  extTest w || hyphenTest w

/-! ## Model of `extractTechKeywords` (matchService.js lines 528–573) -/

/-- The fixed keyword vocabulary `techKeywords` of `extractTechKeywords`. -/
def techKeywords : List String :=
  ["JavaScript", "JS", "TypeScript", "TS", "React", "Angular", "Vue", "Node", "Express",
   "MongoDB", "SQL", "PostgreSQL", "MySQL", "Firebase", "AWS", "Azure", "GCP",
   "Docker", "Kubernetes", "CI/CD", "Git", "GitHub", "GitLab", "Python", "Django", "Flask",
   "Java", "Spring", "C#", ".NET", "C++", "Ruby", "Rails", "PHP", "Laravel", "Symfony",
   "HTML", "CSS", "SASS", "SCSS", "Bootstrap", "Tailwind", "Redux", "GraphQL", "REST API",
   "Agile", "Scrum", "TDD", "Jest", "Mocha", "Cypress", "WebPack", "Babel", "ESLint",
   "Responsive Design", "Mobile Development", "Android", "iOS", "Swift", "Kotlin",
   "Machine Learning", "AI", "Data Science", "Big Data", "Hadoop", "Spark", "TensorFlow",
   "Blockchain", "Ethereum", "Solidity", "DevOps", "Linux", "Unix", "Bash", "Shell",
   "PowerShell", "Frontend", "Backend", "Fullstack", "Web Development", "Software Engineering",
   "Algorithm", "Data Structure", "Database", "Networking", "Security", "Cloud Computing",
   "Microservices", "API Design", "UI/UX", "Testing", "QA", "Debugging", "Performance Optimization",
   "Go", "Golang", "Rust", "Scala", "Clojure", "Haskell", "Erlang", "Elixir", "F#", "OCaml",
   "R", "Julia", "MATLAB", "Perl", "Assembly", "COBOL", "Fortran", "Lisp", "Scheme",
   "Next.js", "Gatsby", "Svelte", "jQuery", "Ember", "Backbone", "Knockout", "D3.js",
   "Three.js", "WebGL", "Canvas", "SVG", "Web Components", "PWA", "Service Workers",
   "WebSockets", "WebRTC", "WebAssembly", "WASM",
   "Senior", "Junior", "Developer", "Engineer", "Architect", "Lead", "Manager", "Director",
   "Programmer", "SDE", "SWE"]

/-- Model of `extractTechKeywords(text)`: vocabulary scan over the lowercased text,
plus the shape-heuristic token scan, deduplicated with a `Set`. -/
def extractTechKeywords (text : String) : List String :=
  if text = "" then []
  else
    let textLower := jsToLowerStr text
    let found := techKeywords.filter (fun keyword => jsIncludes textLower (jsToLowerStr keyword))
    let words := jsSplitOn isDelimChar textLower
    let potentialTechWords := words.filter techShapeTest
    jsDedup (found ++ potentialTechWords)

/-! ## Record data model

Profile and Job objects as `performLocalMatch`/`extractSkills` read them.
A skill entry may be a bare string or an object; of an object the source
reads `name`, `importance`, `proficiency`, `level` and `required`. -/

/-- A skill entry of a `skills` array: a bare string or an object. -/
inductive SkillInput where
  | str (s : String)
  | obj (name : Option String) (importance : Option ℚ) (proficiency : Option ℚ)
        (level : Option ℚ) (required : Option Bool)
deriving DecidableEq, Repr

/-- A repository record inside `data.repositories`. -/
structure RepoObj where
  languages : Option (List String) := none
  technologies : Option (List String) := none
  language : Option String := none
  name : Option String := none
  description : Option String := none
deriving DecidableEq, Repr

/-- An experience record inside `data.experience` (LinkedIn profiles). -/
structure ExperienceObj where
  description : Option String := none
  title : Option String := none
deriving DecidableEq, Repr

/-- The nested `data` object of a profile record. -/
structure DataObj where
  skills : Option (List SkillInput) := none
  repositories : Option (List RepoObj) := none
  bio : Option String := none
  experience : Option (List ExperienceObj) := none
deriving DecidableEq, Repr

/-- A profile or job record, with every field the matching core reads.
All fields are optional, as in the loosely-typed JavaScript records. -/
structure RecordObj where
  skills : Option (List SkillInput) := none
  data : Option DataObj := none
  platform : Option String := none
  username : Option String := none
  title : Option String := none
  description : Option String := none
  bio : Option String := none
  company : Option String := none
deriving DecidableEq, Repr

/-- Name selection of `extractSkills`' skills-array walk:
`typeof skill === 'string' ? skill : (skill.name || '')`, then
`.filter(Boolean)` drops empty names. -/
def skillInputName : SkillInput → Option String
  | .str s => if s = "" then none else some s
  | .obj (some n) _ _ _ _ => if n = "" then none else some n
  | .obj none _ _ _ _ => none

/-! ## Model of `extractSkills` (matchService.js lines 375–523) -/

/-- The accumulated (pre-cleanup) skill list of `extractSkills`, in the push
order of the source. -/
def extractSkillsRaw (obj : RecordObj) : List String :=
  let fromSkills := (obj.skills.getD []).filterMap skillInputName
  let fromData :=
    match obj.data with
    | none => []
    | some d =>
      (d.skills.getD []).filterMap skillInputName ++
      (d.repositories.getD []).flatMap (fun repo =>
        repo.languages.getD [] ++ repo.technologies.getD [] ++
        (if jsStrTruthy repo.language then [repo.language.getD ""] else []) ++
        (if jsStrTruthy repo.name then extractTechKeywords (repo.name.getD "") else []) ++
        (if jsStrTruthy repo.description then extractTechKeywords (repo.description.getD "") else [])) ++
      (if jsStrTruthy d.bio then extractTechKeywords (d.bio.getD "") else [])
  let usernameStr := obj.username.getD ""
  let isLinkedIn :=
    obj.platform = some "linkedin" ||
      (jsStrTruthy obj.username && jsIncludes usernameStr "linkedin.com")
  let fromLinkedIn :=
    if isLinkedIn then
      (match obj.data with
       | none => []
       | some d =>
         (d.experience.getD []).flatMap (fun exp =>
           (if jsStrTruthy exp.description then extractTechKeywords (exp.description.getD "") else []) ++
           (if jsStrTruthy exp.title then extractTechKeywords (exp.title.getD "") else []))) ++
      (if jsStrTruthy obj.username && jsIncludes usernameStr "linkedin.com" then
        ["LinkedIn", "Networking", "Professional", "Communication"] ++
        (let parts := usernameStr.splitOn "/"
         let lastPart := parts.getLastD ""
         if lastPart ≠ "" && !jsIncludes lastPart "linkedin.com" then
           extractTechKeywords ⟨lastPart.data.map (fun c => if c = '-' then ' ' else c)⟩
         else [])
      else [])
    else []
  let isGitHub :=
    obj.platform = some "github" ||
      (jsStrTruthy obj.username && !jsIncludes usernameStr "linkedin.com")
  let fromGitHub :=
    if isGitHub then
      (if jsStrTruthy obj.username && !jsIncludes usernameStr "http" then
        ["GitHub", "Git", "Version Control", "Programming", "Software Development", "Coding"]
      else []) ++
      (match obj.data with
       | none => []
       | some d =>
         match d.repositories with
         | none => []
         | some repos => repos.flatMap (fun repo =>
             (if jsStrTruthy repo.language then [repo.language.getD ""] else []) ++
             repo.languages.getD []))
    else []
  let fromText :=
    (if jsStrTruthy obj.title then extractTechKeywords (obj.title.getD "") else []) ++
    (if jsStrTruthy obj.description then extractTechKeywords (obj.description.getD "") else []) ++
    (if jsStrTruthy obj.bio then extractTechKeywords (obj.bio.getD "") else [])
  let base := fromSkills ++ fromData ++ fromLinkedIn ++ fromGitHub ++ fromText
  let fromUsername :=
    if base = [] && jsStrTruthy obj.username then
      let usernameKeywords := extractTechKeywords usernameStr
      usernameKeywords ++
        (if usernameKeywords = [] then
          if obj.platform = some "github" ||
              (jsStrTruthy obj.username && !jsIncludes usernameStr "linkedin.com") then
            ["GitHub", "Programming", "Software Development", "Coding"]
          else if obj.platform = some "linkedin" ||
              (jsStrTruthy obj.username && jsIncludes usernameStr "linkedin.com") then
            ["LinkedIn", "Professional Networking", "Communication", "Professional Skills"]
          else []
        else [])
    else []
  let fromCompany :=
    if base ++ fromUsername = [] && jsStrTruthy obj.company then
      extractTechKeywords (obj.company.getD "") ++ ["Professional", "Communication", "Teamwork"]
    else []
  base ++ fromUsername ++ fromCompany

/-- Model of `extractSkills(obj)`: the raw accumulation, then the cleanup
`[...new Set(skills.map(s => s?.trim()).filter(Boolean))]`. -/
def extractSkills (obj : RecordObj) : List String :=
  jsDedup (((extractSkillsRaw obj).map jsTrim).filter (fun s => s ≠ ""))

/-! ## Model of `calculateStringSimilarity` (matchService.js lines 299–345) -/

/-- Model of `commonPrefixLength(str1, str2)`: length of the longest common prefix. -/
def commonPrefixLength : List Char → List Char → Nat
  | a :: as, b :: bs => if a = b then commonPrefixLength as bs + 1 else 0
  | _, _ => 0

/-- Model of `commonSuffixLength(str1, str2)`: length of the longest common suffix
(compared character-wise from the ends). -/
def commonSuffixLength (s1 s2 : List Char) : Nat :=
  commonPrefixLength s1.reverse s2.reverse

/-- Model of `calculateStringSimilarity(str1, str2)`: the layered heuristic of the
source, branches in source order.  The `len === 0` branch is kept even
though it is unreachable (an empty string is always a substring, so the
containment branches fire first). -/
def calculateStringSimilarity (str1 str2 : String) : ℚ :=
  if str1 = str2 then 1
  else if jsIncludes str1 str2 then 9/10
  else if jsIncludes str2 str1 then 9/10
  else if str1.length = 0 ∨ str2.length = 0 then 0
  else if str1.length < 3 ∨ str2.length < 3 then
    (if str1.data.head? = str2.data.head? then 7/10 else 0)
  else
    let words1 := jsSplitOn Char.isWhitespace str1
    let words2 := jsSplitOn Char.isWhitespace str2
    let commonWords := words1.countP (fun w1 =>
      words2.any (fun w2 => w1 = w2 || jsIncludes w1 w2 || jsIncludes w2 w1))
    if 0 < commonWords then
      (commonWords : ℚ) / (max words1.length words2.length : ℕ)
    else
      let pl := commonPrefixLength str1.data str2.data
      let sl := commonSuffixLength str1.data str2.data
      if 3 ≤ pl ∨ 3 ≤ sl then ((pl : ℚ) + (sl : ℚ)) / ((str1.length : ℚ) + (str2.length : ℚ))
      else 1/10

/-! ## Model of `performLocalMatch` (matchService.js lines 230–293) -/

/-- The threshold `similarityThreshold = 0.6` of `performLocalMatch`. -/
def similarityThreshold : ℚ := 6/10

/-- The effective job skill list of `performLocalMatch`: the extracted job
skills, or the generic fallback list when none were extracted. -/
def effectiveJobSkills (job : RecordObj) : List String :=
  let jobSkills := extractSkills job
  if 0 < jobSkills.length then jobSkills
  else ["communication", "teamwork", "problem solving", "professional"]

/-- Whether a profile skill has a job-skill match at or above the
threshold (the `find` of the matched-skills loop). -/
def profileSkillMatches (effJobSkills : List String) (pSkill : String) : Bool :=
  (effJobSkills.find? (fun jSkill =>
    decide (similarityThreshold ≤
      calculateStringSimilarity (jsToLowerStr pSkill) (jsToLowerStr jSkill)))).isSome

/-- The `matchedSkills` accumulation loop of `performLocalMatch`: profile
skills with a job-skill match, skipping entries already collected. -/
def collectMatchedSkills (effJobSkills : List String) (profileSkills : List String) : List String :=
  profileSkills.foldl (fun acc pSkill =>
    if profileSkillMatches effJobSkills pSkill && !acc.contains pSkill then
      acc ++ [pSkill]
    else acc) []

/-- The result record of `performLocalMatch`. -/
structure ServiceMatchResult where
  overall_score : ℚ
  skill_match : ℚ
  skills_matched : List String
  skills_missing : List String
  message : String
deriving DecidableEq, Repr

/-- Model of `performLocalMatch(profile, job)`: the backend-free matching fallback of
matchService.js.  The `isNaN(score)` guard of the source corresponds to the
`0 < length` test: in exact rational arithmetic the score expression is the
only place a JavaScript `NaN` (`0/0`) could arise. -/
def performLocalMatch (profile job : RecordObj) : ServiceMatchResult :=
  let profileSkills := extractSkills profile
  let effJobSkills := effectiveJobSkills job
  if profileSkills.length = 0 then
    { overall_score := 3/10
      skill_match := 3/10
      skills_matched := []
      skills_missing := effJobSkills
      message := "No profile skills found for matching" }
  else
    let matchedSkills := collectMatchedSkills effJobSkills profileSkills
    let missingSkills := effJobSkills.filter (fun jSkill =>
      !profileSkills.any (fun pSkill =>
        decide (similarityThreshold ≤
          calculateStringSimilarity (jsToLowerStr pSkill) (jsToLowerStr jSkill))))
    let score : ℚ :=
      if 0 < effJobSkills.length then
        (matchedSkills.length : ℚ) / (effJobSkills.length : ℚ)
      else 1/2
    let validScore := max 0 (min 1 score)
    { overall_score := validScore
      skill_match := validScore
      skills_matched := matchedSkills
      skills_missing := missingSkills
      message := "Found " ++ toString matchedSkills.length ++
        " matching skills out of " ++ toString effJobSkills.length ++ " required skills" }

/-! ## Models of `calculateMatch` and `calculateCombinedMatch` (matchService.js lines 102–202)

Both entry points assign `job.skills = extractTechKeywords(job.description)`
when the job carries a description but no skills, mutating the input job
record; the model returns the (possibly updated) job record alongside the
match result. -/

/-- The `job.skills` reassignment shared by `calculateMatch` and
`calculateCombinedMatch`: if `job.description && (!job.skills ||
!job.skills.length)`, store the description keywords as the job's skills. -/
def jobWithExtractedSkills (job : RecordObj) : RecordObj :=
  if jsStrTruthy job.description && (job.skills.getD []).isEmpty then
    let newSkills := (extractTechKeywords (job.description.getD "")).map SkillInput.str
    { job with skills := some newSkills }
  else job

/-- Model of `calculateMatch(profile, job)`: update the job's skills from its
description if needed, then run the local match.  The first component is
the job record as it stands after the call (the source mutates it in
place). -/
def calculateMatch (profile job : RecordObj) : RecordObj × ServiceMatchResult :=
  let job1 := jobWithExtractedSkills job
  (job1, performLocalMatch profile job1)

/-- The platforms list attached by `calculateCombinedMatch`:
`profiles.map(p => p.platform).filter(Boolean)`. -/
def combinedPlatforms (profiles : List RecordObj) : List String :=
  profiles.filterMap (fun p =>
    match p.platform with
    | some s => if s = "" then none else some s
    | none => none)

/-- Model of `calculateCombinedMatch(profiles, job)`: update the job's skills from its
description if needed, merge the profiles' extracted skills (deduplicated),
and run the local match on the merged skill set.  The first component is the
job record as it stands after the call; the platforms list is returned
alongside the match result. -/
def calculateCombinedMatch (profiles : List RecordObj) (job : RecordObj) :
    RecordObj × ServiceMatchResult × List String :=
  let job1 := jobWithExtractedSkills job
  let allProfileSkills := profiles.flatMap extractSkills
  let uniqueSkills := jsDedup allProfileSkills
  let profileObj : RecordObj := { skills := some (uniqueSkills.map SkillInput.str) }
  (job1, performLocalMatch profileObj job1, combinedPlatforms profiles)

/-! ## Model of `calculateLocalMatch` (Home.js lines 911–1012)

The page-local engine with importance weighting, match quality, strengths
and recommendation tiers. -/

/-- A profile skill as normalized by `extractProfileSkills`: bare strings
get no `proficiency` property. -/
structure PSkill where
  name : String
  proficiency : Option ℚ := none
deriving DecidableEq, Repr

/-- A job skill as normalized by `extractJobSkills`.  The source function
copies only `name` and `importance`; it never copies `required`, so the
field is `none` for every skill it produces. -/
structure JSkill where
  name : String
  importance : Option ℚ := none
  required : Option Bool := none
deriving DecidableEq, Repr

/-- Model of `extractProfileSkills(profile)` (Home.js lines 1015–1034). -/
def extractProfileSkills (profile : RecordObj) : List PSkill :=
  (profile.skills.getD []).filterMap (fun skill =>
    match skill with
    | .str s => some { name := s }
    | .obj (some n) _ prof level _ =>
      if n = "" then none
      else some { name := n, proficiency := some (jsOrQ prof (jsOrQ level 1)) }
    | .obj none _ _ _ _ => none)

/-- Model of `extractJobSkills(job)` (Home.js lines 1037–1056).  Note that the
`required` flag of an input skill object is not copied. -/
def extractJobSkills (job : RecordObj) : List JSkill :=
  (job.skills.getD []).filterMap (fun skill =>
    match skill with
    | .str s => some { name := s, importance := some (1/2) }
    | .obj (some n) imp _ _ _ =>
      if n = "" then none
      else some { name := n, importance := some (jsOrQ imp (1/2)) }
    | .obj none _ _ _ _ => none)

/-- The profile-skill search of `calculateLocalMatch`: the first profile
skill whose lowercased name equals, contains, or is contained in the
lowercased job skill name. -/
def homeMatchPred (jobSkillName : String) (s : PSkill) : Bool :=
  jsToLowerStr s.name = jobSkillName ||
  jsIncludes (jsToLowerStr s.name) jobSkillName ||
  jsIncludes jobSkillName (jsToLowerStr s.name)

/-- One entry of the `skill_matches` list of `calculateLocalMatch`. -/
structure SkillMatchEntry where
  skill_name : String
  importance : ℚ
  proficiency : ℚ
  match_quality : ℚ
  match_score : ℚ
  weighted_score : ℚ
  required : Bool
deriving DecidableEq, Repr

/-- One entry of the `missingSkills` list of `calculateLocalMatch`. -/
structure MissingSkill where
  name : String
  importance : ℚ
  required : Bool
deriving DecidableEq, Repr

/-- The per-job-skill step of `calculateLocalMatch`'s matching loop: the
produced `skill_matches` entry, or `none` when no profile skill matches. -/
def jobSkillEntry (profileSkills : List PSkill) (jobSkill : JSkill) : Option SkillMatchEntry :=
  let jobSkillName := jsToLowerStr jobSkill.name
  let importance := jsOrQ jobSkill.importance (1/2)
  (profileSkills.find? (homeMatchPred jobSkillName)).map (fun matchingSkill =>
    let proficiency := jsOrQ matchingSkill.proficiency 1
    let matchQuality : ℚ := if jsToLowerStr matchingSkill.name = jobSkillName then 1 else 7/10
    let matchScore := matchQuality * proficiency
    { skill_name := jobSkill.name
      importance := importance
      proficiency := proficiency
      match_quality := matchQuality
      match_score := matchScore
      weighted_score := importance * matchScore
      required := jobSkill.required.getD false })

/-- The `missingSkills` step of `calculateLocalMatch`: the entry pushed when
no profile skill matches the job skill. -/
def jobSkillMissing (profileSkills : List PSkill) (jobSkill : JSkill) : Option MissingSkill :=
  if ((profileSkills.find? (homeMatchPred (jsToLowerStr jobSkill.name))).isSome : Bool) then none
  else some
    { name := jobSkill.name
      importance := jsOrQ jobSkill.importance (1/2)
      required := jobSkill.required.getD false }

/-- The recommendation text for a given `overallMatch` percentage.  A `none`
percentage models JavaScript `NaN`, for which every `>=` comparison is
false, so the final `else` branch is taken, as in the source. -/
def recommendationText (overallMatch : Option ℤ) : String :=
  match overallMatch with
  | some n =>
    if 85 ≤ n then
      "Excellent Match: This candidate has most of the required skills and would be an excellent fit for this position."
    else if 70 ≤ n then
      "Good Match: This candidate has many of the required skills and would likely be a good fit with some training."
    else if 50 ≤ n then
      "Moderate Match: This candidate has some of the required skills but may need significant training or may not be ideal for this specific role."
    else if 30 ≤ n then
      "Weak Match: This candidate is missing many critical skills required for this position."
    else
      "Poor Match: This candidate does not appear to have the necessary skills for this position."
  | none =>
    "Poor Match: This candidate does not appear to have the necessary skills for this position."

/-- The result of `calculateLocalMatch`.  The bookkeeping fields of the
source record (`id` from `Date.now()`, `profile_id`, `profile_name`,
`job_id`, `job_title`, `company`, `created_at`) carry no matching logic and
are omitted from the model. -/
structure HomeMatchResult where
  overall_match : Option ℤ
  skill_matches : List SkillMatchEntry
  missing_skills : List String
  missing_skills_details : List MissingSkill
  strengths : List String
  recommendation : String
deriving DecidableEq, Repr

/-- Model of `calculateLocalMatch(profile, job)`: the importance-weighted local
matching algorithm of Home.js.  `overall_match` is
`Math.round((matchedImportance / totalImportance) * 100)`, with `none`
modelling the `NaN` produced when `totalImportance` is `0` (no unguarded
fallback exists in the source). -/
def calculateLocalMatch (profile job : RecordObj) : HomeMatchResult :=
  let profileSkills := extractProfileSkills profile
  let jobSkills := extractJobSkills job
  let skillMatches := jobSkills.filterMap (jobSkillEntry profileSkills)
  let missingSkills := jobSkills.filterMap (jobSkillMissing profileSkills)
  let totalImportance := (jobSkills.map (fun j => jsOrQ j.importance (1/2))).sum
  let matchedImportance := (skillMatches.map SkillMatchEntry.weighted_score).sum
  let overallMatch : Option ℤ :=
    if totalImportance = 0 then none
    else some (jsRound (matchedImportance / totalImportance * 100))
  let missingRequiredSkills := missingSkills.filter MissingSkill.required
  let recommendation :=
    recommendationText overallMatch ++
      (if 0 < missingRequiredSkills.length then
        " Missing " ++ toString missingRequiredSkills.length ++ " required skill(s)."
      else "")
  let strengths := (skillMatches.filter (fun m =>
    decide (7/10 ≤ m.importance) && decide (7/10 ≤ m.match_score))).map SkillMatchEntry.skill_name
  { overall_match := overallMatch
    skill_matches := skillMatches
    missing_skills := missingSkills.map MissingSkill.name
    missing_skills_details := missingSkills
    strengths := strengths
    recommendation := recommendation }

/-! ## The selection rule claimed by the specification

For comparison with the source's first-containment-match rule, this is the
selection rule as the specification words it: pick the profile skill
maximizing `similarity(p.name, j.name)` (names lowercased, as the
specification's invariants require), matched when the maximum similarity
reaches the 0.6 threshold. -/

/-- Modelled from the spec: the profile skill `p` maximizing
`similarity(p.name, j.name)` (first one in list order on ties). -/
def specC2Select (profileSkills : List PSkill) (jobSkillName : String) : Option PSkill :=
  profileSkills.foldl (fun best p =>
    match best with
    | none => some p
    | some b =>
      if calculateStringSimilarity (jsToLowerStr b.name) (jsToLowerStr jobSkillName) <
          calculateStringSimilarity (jsToLowerStr p.name) (jsToLowerStr jobSkillName) then
        some p
      else some b) none

/-! ## Concrete inputs used by the witnesses and counterexamples -/

/-- A record with no fields set. -/
def emptyRecordObj : RecordObj := {}

/-- Scenario A profile: skills `["React", "Node.js"]`. -/
def scenarioAProfile : RecordObj :=
  { skills := some [.str "React", .str "Node.js"] }

/-- Scenario A job: `[{name:"React",importance:1.0,required:true},
{name:"Python",importance:0.8,required:true}]`. -/
def scenarioAJob : RecordObj :=
  { skills := some [.obj (some "React") (some 1) none none (some true),
                    .obj (some "Python") (some (4/5)) none none (some true)] }

/-- The `skill_matches` entry `calculateLocalMatch` produces for `"React"`
in Scenario A. -/
def scenarioAReactEntry : SkillMatchEntry :=
  { skill_name := "React", importance := 1, proficiency := 1,
    match_quality := 1, match_score := 1, weighted_score := 1, required := false }

/-- A profile whose first skill `"Reactive"` contains the job skill name
`"React"` while its second skill is the exact match `"React"`. -/
def reactiveProfile : RecordObj :=
  { skills := some [.str "Reactive", .str "React"] }

/-- A job requiring the single skill `"React"`. -/
def reactJob : RecordObj :=
  { skills := some [.str "React"] }

/-- A profile with the single skill `"JavaScript"`. -/
def profileJavaScriptObj : RecordObj :=
  { skills := some [.str "JavaScript"] }

/-- A job with the single skill `"Java"`. -/
def jobJavaObj : RecordObj :=
  { skills := some [.str "Java"] }

/-- A job with a description but no skills list. -/
def jobGoDescription : RecordObj :=
  { description := some "Go" }

/-- A profile whose two skills differ only in letter case. -/
def profileDupCase : RecordObj :=
  { skills := some [.str "React", .str "react"] }

/-- A job with the single skill `"SQL"`. -/
def jobSqlObj : RecordObj :=
  { skills := some [.str "SQL"] }

/-! ## C4 — Scenario A evaluation -/

/-- C4: on Scenario A (profile `["React","Node.js"]`, job
`[{React, 1.0, required}, {Python, 0.8, required}]`) the engine matches
React with match quality, match score and weighted score 1, reports Python
missing, and rounds `1/1.8` to the 56% "Moderate" tier — but the
recommendation carries no "Missing 1 required skill(s)." note, because
`extractJobSkills` drops the `required` flag that `calculateLocalMatch`
reads, so the claimed suffix is never appended. -/
theorem C4_scenarioA_eval :
    calculateLocalMatch scenarioAProfile scenarioAJob =
      { overall_match := some 56
        skill_matches := [scenarioAReactEntry]
        missing_skills := ["Python"]
        missing_skills_details := [{ name := "Python", importance := 4/5, required := false }]
        strengths := ["React"]
        recommendation := "Moderate Match: This candidate has some of the required skills but may need significant training or may not be ideal for this specific role." } ∧
    jsRound ((1 : ℚ) / (9/5) * 100) = 56 := by
  constructor
  · decide
  · decide

/-! ## C5 — empty profile skill set gives the degenerate result -/

/-- C5: whenever skill extraction yields no profile skills,
`performLocalMatch` returns the defined degenerate result — overall score
`0.3`, no matched skills, `skills_missing` equal to the effective job skill
set, and the explanatory message — rather than failing. -/
theorem C5_empty_profile_degenerate (profile job : RecordObj)
    (h : extractSkills profile = []) :
    performLocalMatch profile job =
      { overall_score := 3/10
        skill_match := 3/10
        skills_matched := []
        skills_missing := effectiveJobSkills job
        message := "No profile skills found for matching" } := by
  unfold performLocalMatch
  rw [h]
  simp

/-- Witness for C5 at the empty profile and a job requiring `"SQL"`. -/
theorem C5_empty_profile_degenerate_witness :
    performLocalMatch emptyRecordObj jobSqlObj =
      { overall_score := 3/10
        skill_match := 3/10
        skills_matched := []
        skills_missing := effectiveJobSkills jobSqlObj
        message := "No profile skills found for matching" } ∧
    effectiveJobSkills jobSqlObj = ["SQL"] :=
  ⟨C5_empty_profile_degenerate emptyRecordObj jobSqlObj (by decide), by decide⟩

/-! ## C6 — generic fallback job skill set -/

/-- C6: for every job record from which skill extraction yields nothing,
the engine substitutes the generic fallback set
`communication, teamwork, problem solving, professional`, so the effective
job skill set is never empty and a score is always computable. -/
theorem C6_fallback_skill_set (job : RecordObj) (h : extractSkills job = []) :
    effectiveJobSkills job = ["communication", "teamwork", "problem solving", "professional"] ∧
    effectiveJobSkills job ≠ [] := by
  unfold effectiveJobSkills
  rw [h]
  simp

/-- Witness for C6 at the record with no fields set. -/
theorem C6_fallback_skill_set_witness :
    effectiveJobSkills emptyRecordObj =
      ["communication", "teamwork", "problem solving", "professional"] ∧
    effectiveJobSkills emptyRecordObj ≠ [] :=
  C6_fallback_skill_set emptyRecordObj (by decide)

/-! ## C1 — NaN guard: counterexample and amended statement -/

/-- C1 counterexample: a call to the match engine whose overall score is
`NaN`.  With an empty job skill list, `calculateLocalMatch` computes
`Math.round((0/0)*100)`, i.e. `NaN` (modelled by `none`): the claimed `0.5`
fallback and clamping do not exist in that engine. -/
theorem C1_counterexample :
    extractJobSkills emptyRecordObj = [] ∧
    (calculateLocalMatch scenarioAProfile emptyRecordObj).overall_match = none := by
  constructor
  · decide
  · decide

/-- C1 amended: `performLocalMatch` (matchService.js) does keep its overall
score in `[0,1]` and never `NaN` (the `isNaN` fallback `0.5` and the clamp
are applied to its matched-count ratio), but `calculateLocalMatch` (Home.js)
has no such guard: whenever its extracted job skill list is empty the
division `matchedImportance/totalImportance` is `0/0` and the rounded
percentage is `NaN` (`none`). -/
theorem C1_amended_score_bounds (profile job jobE : RecordObj)
    (hE : extractJobSkills jobE = []) :
    (0 ≤ (performLocalMatch profile job).overall_score ∧
      (performLocalMatch profile job).overall_score ≤ 1) ∧
    (calculateLocalMatch profile jobE).overall_match = none := by
  constructor
  · simp only [performLocalMatch]
    split
    · constructor
      · norm_num
      · norm_num
    · constructor
      · exact le_max_left 0 _
      · exact max_le (by norm_num) (min_le_left _ _)
  · simp [calculateLocalMatch, hE]

/-- Witness for C1's amended statement at concrete records. -/
theorem C1_amended_score_bounds_witness :
    (0 ≤ (performLocalMatch profileJavaScriptObj jobJavaObj).overall_score ∧
      (performLocalMatch profileJavaScriptObj jobJavaObj).overall_score ≤ 1) ∧
    (calculateLocalMatch profileJavaScriptObj emptyRecordObj).overall_match = none :=
  C1_amended_score_bounds profileJavaScriptObj jobJavaObj emptyRecordObj (by decide)

/-! ## C2 — per-skill matching rule: counterexample and amended statement -/

/-- C2 counterexample: with profile skills `["Reactive", "React"]` and job
skill `"React"`, the engine's `find` picks `"Reactive"` (first containment
match) and yields match quality `0.7`, although the profile skill maximizing
the similarity is the exact match `"React"` (similarity `1 ≥ 0.6`, names
equal case-insensitively), for which the claim prescribes quality `1.0`. -/
theorem C2_counterexample :
    (calculateLocalMatch reactiveProfile reactJob).skill_matches =
      [{ skill_name := "React", importance := 1/2, proficiency := 1,
         match_quality := 7/10, match_score := 7/10, weighted_score := 7/20,
         required := false }] ∧
    specC2Select (extractProfileSkills reactiveProfile) "React" =
      some { name := "React" } ∧
    calculateStringSimilarity (jsToLowerStr "React") (jsToLowerStr "React") = 1 ∧
    similarityThreshold ≤ 1 ∧
    (7 : ℚ)/10 ≠ 1 := by
  refine ⟨by decide, by decide, by decide, by decide, by decide⟩

/-- C2 amended: for each extracted job skill (importance defaulting to `0.5`
when absent or falsy), the engine matches the first profile skill whose
lowercased name equals, contains, or is contained in the job skill's
lowercased name — not the similarity-maximizing one, and with no `0.6`
similarity threshold in this engine.  For the skill found, match quality is
`1.0` exactly when the lowercased names are equal and `0.7` otherwise, and
the per-skill match score is quality times proficiency (proficiency
defaulting to `1.0`). -/
theorem C2_amended_per_skill_rule (profile job : RecordObj) (e : SkillMatchEntry)
    (he : e ∈ (calculateLocalMatch profile job).skill_matches) :
    ∃ j ∈ extractJobSkills job, ∃ p,
      (extractProfileSkills profile).find? (homeMatchPred (jsToLowerStr j.name)) = some p ∧
      e.skill_name = j.name ∧
      e.importance = jsOrQ j.importance (1/2) ∧
      e.proficiency = jsOrQ p.proficiency 1 ∧
      e.match_quality = (if jsToLowerStr p.name = jsToLowerStr j.name then 1 else 7/10) ∧
      e.match_score = e.match_quality * e.proficiency ∧
      e.weighted_score = e.importance * e.match_score := by
  have hmem : e ∈ (extractJobSkills job).filterMap (jobSkillEntry (extractProfileSkills profile)) := he
  rw [List.mem_filterMap] at hmem
  obtain ⟨j, hj, hentry⟩ := hmem
  refine ⟨j, hj, ?_⟩
  unfold jobSkillEntry at hentry
  rw [Option.map_eq_some'] at hentry
  obtain ⟨p, hfind, hep⟩ := hentry
  refine ⟨p, hfind, ?_⟩
  subst hep
  simp

/-- Witness for C2's amended statement: the Scenario A `"React"` entry. -/
theorem C2_amended_per_skill_rule_witness :
    ∃ j ∈ extractJobSkills scenarioAJob, ∃ p,
      (extractProfileSkills scenarioAProfile).find? (homeMatchPred (jsToLowerStr j.name)) = some p ∧
      scenarioAReactEntry.skill_name = j.name ∧
      scenarioAReactEntry.importance = jsOrQ j.importance (1/2) ∧
      scenarioAReactEntry.proficiency = jsOrQ p.proficiency 1 ∧
      scenarioAReactEntry.match_quality =
        (if jsToLowerStr p.name = jsToLowerStr j.name then 1 else 7/10) ∧
      scenarioAReactEntry.match_score =
        scenarioAReactEntry.match_quality * scenarioAReactEntry.proficiency ∧
      scenarioAReactEntry.weighted_score =
        scenarioAReactEntry.importance * scenarioAReactEntry.match_score :=
  C2_amended_per_skill_rule scenarioAProfile scenarioAJob scenarioAReactEntry (by decide)

/-! ## C3 — matched/missing partition: counterexample -/

/-- C3 counterexample: in `performLocalMatch`, `skills_matched` holds
profile skill names.  With profile `["JavaScript"]` and job `["Java"]` the
job skill `"Java"` is matched (similarity `0.9` via containment), so it is
not missing — but the effective job skill `"Java"` appears in neither
returned list, which instead cover `{"JavaScript"}`. -/
theorem C3_counterexample :
    (performLocalMatch profileJavaScriptObj jobJavaObj).skills_matched = ["JavaScript"] ∧
    (performLocalMatch profileJavaScriptObj jobJavaObj).skills_missing = [] ∧
    effectiveJobSkills jobJavaObj = ["Java"] ∧
    "Java" ∉ ((performLocalMatch profileJavaScriptObj jobJavaObj).skills_matched ++
      (performLocalMatch profileJavaScriptObj jobJavaObj).skills_missing) := by
  refine ⟨by decide, by decide, by decide, by decide⟩

/-! ## C7 — similarity on empty strings: counterexample -/

/-- C7 counterexample: the similarity of an empty and a non-empty string is
`0.9`, not `0` (every string contains the empty string, so the containment
branch fires before the dead `length === 0` guard), and the similarity of
two empty strings is `1`. -/
theorem C7_counterexample :
    calculateStringSimilarity "" "x" = 9/10 ∧
    calculateStringSimilarity "" "" = 1 ∧
    (9 : ℚ)/10 ≠ 0 ∧ (1 : ℚ) ≠ 0 := by
  refine ⟨by decide, by decide, by decide, by decide⟩

/-! ## C8 — shape heuristics: counterexample -/

/-- C8 counterexample: `"zzXy"` is a camelCase-shaped token (of length
`> 1`), yet `extractTechKeywords "zzXy"` is empty — the text is lowercased
before tokenizing, so the camelCase test can never select a token. -/
theorem C8_counterexample :
    camelTest "zzXy" = true ∧
    1 < ("zzXy" : String).length ∧
    extractTechKeywords "zzXy" = [] := by
  refine ⟨by decide, by decide, by decide⟩

/-! ## C9 — purity of the entry points: counterexample and amended statement -/

/-- C9 counterexample: `calculateMatch` mutates its job argument.  For a job
with a description and no skills list, the job record after the call
carries the extracted skills (`[".str Go"]` here), so it no longer equals
the input record. -/
theorem C9_counterexample :
    (calculateMatch emptyRecordObj jobGoDescription).1.skills = some [SkillInput.str "Go"] ∧
    jobGoDescription.skills = none ∧
    (calculateMatch emptyRecordObj jobGoDescription).1 ≠ jobGoDescription := by
  refine ⟨by decide, by decide, by decide⟩

/-- C9 amended: `calculateMatch` and `calculateCombinedMatch` assign
extracted description keywords to `job.skills` — mutating the input job —
exactly when the job has a truthy description and an absent or empty skills
list; in every other case the job record is left unchanged (and profile
records are never written at all, the match result being a fresh record). -/
theorem C9_amended_no_mutation (profile : RecordObj) (profiles : List RecordObj)
    (job : RecordObj)
    (h : ¬(jsStrTruthy job.description = true ∧ (job.skills.getD []).isEmpty = true)) :
    (calculateMatch profile job).1 = job ∧
    (calculateCombinedMatch profiles job).1 = job := by
  have hjob : jobWithExtractedSkills job = job := by
    unfold jobWithExtractedSkills
    rw [if_neg]
    intro hand
    rw [Bool.and_eq_true] at hand
    exact h hand
  exact ⟨hjob, hjob⟩

/-- Witness for C9's amended statement: a job that already has a skills
list is not mutated. -/
theorem C9_amended_no_mutation_witness :
    (calculateMatch profileJavaScriptObj jobJavaObj).1 = jobJavaObj ∧
    (calculateCombinedMatch [] jobJavaObj).1 = jobJavaObj :=
  C9_amended_no_mutation profileJavaScriptObj [] jobJavaObj (by decide)

/-! ## C10 — deduplication: counterexample -/

/-- C10 counterexample: skill-set deduplication is exact, not
case-insensitive: a profile with skills `["React", "react"]` keeps both
entries, which differ only in letter case. -/
theorem C10_counterexample :
    extractSkills profileDupCase = ["React", "react"] ∧
    jsToLowerStr "React" = jsToLowerStr "react" ∧
    "React" ≠ "react" := by
  refine ⟨by decide, by decide, by decide⟩

/-! ## C3 — matched/missing partition: helper lemmas and amended statement -/

/-- The names of the produced `skill_matches` entries are the names of the
job skills on which the profile-skill search succeeds, in order. -/
theorem skillMatches_names_eq (ps : List PSkill) (js : List JSkill) :
    (js.filterMap (jobSkillEntry ps)).map SkillMatchEntry.skill_name =
      (js.filter (fun j =>
        (ps.find? (homeMatchPred (jsToLowerStr j.name))).isSome)).map JSkill.name := by
  induction js with
  | nil => rfl
  | cons j rest ih =>
    cases hfind : ps.find? (homeMatchPred (jsToLowerStr j.name)) with
    | none => simp [jobSkillEntry, List.filterMap_cons, List.filter_cons, hfind, ih]
    | some p => simp [jobSkillEntry, List.filterMap_cons, List.filter_cons, hfind, ih]

/-- The names of the produced `missingSkills` entries are the names of the
job skills on which the profile-skill search fails, in order. -/
theorem missingSkills_names_eq (ps : List PSkill) (js : List JSkill) :
    (js.filterMap (jobSkillMissing ps)).map MissingSkill.name =
      (js.filter (fun j =>
        !(ps.find? (homeMatchPred (jsToLowerStr j.name))).isSome)).map JSkill.name := by
  induction js with
  | nil => rfl
  | cons j rest ih =>
    cases hfind : ps.find? (homeMatchPred (jsToLowerStr j.name)) with
    | none => simp [jobSkillMissing, List.filterMap_cons, List.filter_cons, hfind, ih]
    | some p => simp [jobSkillMissing, List.filterMap_cons, List.filter_cons, hfind, ih]

/-- C3 amended: in `calculateLocalMatch` the matched job-skill names
together with the missing-skill names are exactly a permutation of the
extracted job skill names — every job skill lands in one of the two lists
and none is dropped — and no name appears in both lists (the per-skill
decision is a function of the lowercased name alone).  In
`performLocalMatch` the corresponding coverage fails, because
`skills_matched` holds profile skill names (see the counterexample). -/
theorem C3_amended_partition (profile job : RecordObj) :
    ((calculateLocalMatch profile job).skill_matches.map SkillMatchEntry.skill_name ++
      (calculateLocalMatch profile job).missing_skills).Perm
      ((extractJobSkills job).map JSkill.name) ∧
    ∀ n, n ∈ (calculateLocalMatch profile job).skill_matches.map SkillMatchEntry.skill_name →
      n ∉ (calculateLocalMatch profile job).missing_skills := by
  have h1 : (calculateLocalMatch profile job).skill_matches =
      (extractJobSkills job).filterMap (jobSkillEntry (extractProfileSkills profile)) := rfl
  have h2 : (calculateLocalMatch profile job).missing_skills =
      ((extractJobSkills job).filterMap
        (jobSkillMissing (extractProfileSkills profile))).map MissingSkill.name := rfl
  rw [h1, h2, skillMatches_names_eq, missingSkills_names_eq]
  constructor
  · rw [← List.map_append]
    exact (List.filter_append_perm _ _).map _
  · intro n hn hn'
    rw [List.mem_map] at hn hn'
    obtain ⟨j1, hj1, hn1⟩ := hn
    obtain ⟨j2, hj2, hn2⟩ := hn'
    rw [List.mem_filter] at hj1 hj2
    have hname : jsToLowerStr j1.name = jsToLowerStr j2.name := by rw [hn1, hn2]
    have hd1 := hj1.2
    have hd2 := hj2.2
    rw [Bool.not_eq_true'] at hd2
    rw [hname] at hd1
    rw [hd1] at hd2
    exact absurd hd2 (by simp)

/-- Witness for C3's amended statement at the `Reactive`/`React` records. -/
theorem C3_amended_partition_witness :
    ((calculateLocalMatch reactiveProfile reactJob).skill_matches.map SkillMatchEntry.skill_name ++
      (calculateLocalMatch reactiveProfile reactJob).missing_skills).Perm
      ((extractJobSkills reactJob).map JSkill.name) ∧
    "React" ∉ (calculateLocalMatch reactiveProfile reactJob).missing_skills :=
  ⟨(C3_amended_partition reactiveProfile reactJob).1,
   (C3_amended_partition reactiveProfile reactJob).2 "React" (by decide)⟩

/-! ## C7 — similarity on empty strings: helper lemmas and amended statement -/

/-- Every string includes the empty string (`"x".includes("")` is `true`). -/
theorem jsIncludes_empty_right (s : String) : jsIncludes s "" = true := by
  simp [jsIncludes, List.nil_infix]

/-- The data of a non-empty string is a non-empty list. -/
theorem string_data_ne_nil (s : String) (h : s ≠ "") : s.data ≠ [] := by
  intro hd
  apply h
  cases s
  simp only at hd
  rw [hd]

/-- The empty string includes no non-empty string. -/
theorem jsIncludes_empty_left (s : String) (h : s ≠ "") : jsIncludes "" s = false := by
  simp only [jsIncludes, decide_eq_false_iff_not]
  rw [List.infix_nil]
  exact string_data_ne_nil s h

/-- A string's length is the length of its character list. -/
theorem string_length_data (s : String) : s.length = s.data.length := rfl

/-- Lemma: `jsSplitOnAux` always yields at least one token. -/
theorem jsSplitOnAux_length_pos (p : Char → Bool) (cs : List Char) :
    ∀ (acc : List Char) (b : Bool), 0 < (jsSplitOnAux p cs acc b).length := by
  induction cs with
  | nil => intro acc b; simp [jsSplitOnAux]
  | cons c rest ih =>
    intro acc b
    rw [jsSplitOnAux]
    split
    · split
      · exact ih acc b
      · simp
    · exact ih (c :: acc) false

/-- A JavaScript regex split always yields at least one token. -/
theorem jsSplitOn_length_pos (p : Char → Bool) (s : String) :
    0 < (jsSplitOn p s).length := by
  simp only [jsSplitOn, jsSplitOnCore, List.length_map]
  exact jsSplitOnAux_length_pos p s.data [] false

/-- C7 amended: the similarity of the empty string with any string is `0.9`
(or `1` for two empty strings) — never `0` — because the containment checks
fire before the unreachable `length === 0` guard; conversely a similarity of
exactly `0` arises only for non-empty inputs in the short-string branch, so
the default branch (which yields `0.1`) indeed never returns `0`. -/
theorem C7_amended_similarity_empty :
    (∀ s : String, calculateStringSimilarity "" s = if s = "" then 1 else 9/10) ∧
    (∀ s : String, calculateStringSimilarity s "" = if s = "" then 1 else 9/10) ∧
    (∀ s t : String, calculateStringSimilarity s t = 0 →
      s ≠ "" ∧ t ≠ "" ∧ (s.length < 3 ∨ t.length < 3)) := by
  refine ⟨?_, ?_, ?_⟩
  · intro s
    by_cases hs : s = ""
    · subst hs; decide
    · rw [if_neg hs]
      simp [calculateStringSimilarity, jsIncludes_empty_left s hs,
        jsIncludes_empty_right s, Ne.symm hs]
  · intro s
    by_cases hs : s = ""
    · subst hs; decide
    · rw [if_neg hs]
      simp [calculateStringSimilarity, hs, jsIncludes_empty_right s]
  · intro s t h
    simp only [calculateStringSimilarity] at h
    by_cases h1 : s = t
    · rw [if_pos h1] at h; exact absurd h (by norm_num)
    rw [if_neg h1] at h
    by_cases h2 : jsIncludes s t = true
    · rw [if_pos h2] at h; exact absurd h (by norm_num)
    rw [if_neg h2] at h
    by_cases h3 : jsIncludes t s = true
    · rw [if_pos h3] at h; exact absurd h (by norm_num)
    rw [if_neg h3] at h
    by_cases h4 : s.length = 0 ∨ t.length = 0
    · exfalso
      cases h4 with
      | inl h4 =>
        apply h3
        have hs : s.data = [] := List.length_eq_zero.mp ((string_length_data s) ▸ h4)
        simp [jsIncludes, hs, List.nil_infix]
      | inr h4 =>
        apply h2
        have ht : t.data = [] := List.length_eq_zero.mp ((string_length_data t) ▸ h4)
        simp [jsIncludes, ht, List.nil_infix]
    rw [if_neg h4] at h
    push_neg at h4
    by_cases h5 : s.length < 3 ∨ t.length < 3
    · refine ⟨?_, ?_, h5⟩
      · intro he; exact h4.1 (by rw [he]; rfl)
      · intro he; exact h4.2 (by rw [he]; rfl)
    · exfalso
      rw [if_neg h5] at h
      split at h
      · rename_i h6
        rw [div_eq_zero_iff] at h
        cases h with
        | inl h =>
          rw [Nat.cast_eq_zero] at h
          omega
        | inr h =>
          rw [Nat.cast_eq_zero] at h
          have hp1 := jsSplitOn_length_pos Char.isWhitespace s
          have hp2 := jsSplitOn_length_pos Char.isWhitespace t
          omega
      · split at h
        · rename_i h7
          rw [div_eq_zero_iff] at h
          cases h with
          | inl h =>
            rw [← Nat.cast_add, Nat.cast_eq_zero] at h
            omega
          | inr h =>
            rw [← Nat.cast_add, Nat.cast_eq_zero] at h
            omega
        · exact absurd h (by norm_num)

/-- Witness for C7's amended statement at concrete strings. -/
theorem C7_amended_similarity_empty_witness :
    calculateStringSimilarity "" "x" = (if ("x" : String) = "" then 1 else 9/10) ∧
    ("ab" : String) ≠ "" ∧ ("cd" : String) ≠ "" ∧
      (("ab" : String).length < 3 ∨ ("cd" : String).length < 3) :=
  ⟨C7_amended_similarity_empty.1 "x",
   C7_amended_similarity_empty.2.2 "ab" "cd" (by decide)⟩

/-! ## C8 — shape heuristics are dead code: helper lemmas and amended statement -/

/-- Lemma: `Char.ofNat` of a valid code point has that code point as `toNat`. -/
theorem charOfNat_toNat (n : ℕ) (h : n.isValidChar) : (Char.ofNat n).toNat = n := by
  simp only [Char.ofNat, h, dite_true, Char.ofNatAux, Char.toNat]
  rfl

/-- Lowercasing a character never yields an ASCII uppercase letter. -/
theorem jsCharLower_not_upper (c : Char) : isUpperAZ (jsCharLower c) = false := by
  unfold jsCharLower
  split
  · rename_i h
    have hv : (c.toNat + 32).isValidChar := by
      left
      omega
    have ht := charOfNat_toNat (c.toNat + 32) hv
    have hgt : ¬(c.toNat + 32 ≤ 90) := by omega
    simp [isUpperAZ, ht, hgt]
  · rename_i h
    by_cases h1 : 65 ≤ c.toNat
    · have h2 : ¬(c.toNat ≤ 90) := fun h2 => h ⟨h1, h2⟩
      simp [isUpperAZ, h2]
    · simp [isUpperAZ, h1]

/-- Every character of every token produced by `jsSplitOnAux` fails the
delimiter test and comes from the input (or the accumulator). -/
theorem jsSplitOnAux_token_chars (p : Char → Bool) (cs : List Char) :
    ∀ (acc : List Char) (b : Bool) (w : List Char), w ∈ jsSplitOnAux p cs acc b →
      (∀ c ∈ acc, p c = false) →
      ∀ d ∈ w, p d = false ∧ (d ∈ cs ∨ d ∈ acc) := by
  induction cs with
  | nil =>
    intro acc b w hw hacc d hd
    simp only [jsSplitOnAux, List.mem_singleton] at hw
    subst hw
    rw [List.mem_reverse] at hd
    exact ⟨hacc d hd, Or.inr hd⟩
  | cons c0 rest ih =>
    intro acc b w hw hacc d hd
    rw [jsSplitOnAux] at hw
    by_cases hp : p c0 = true
    · rw [if_pos hp] at hw
      by_cases hb : b = true
      · rw [if_pos hb] at hw
        have hres := ih acc b w hw hacc d hd
        exact ⟨hres.1, hres.2.elim (fun h => Or.inl (List.mem_cons_of_mem _ h)) Or.inr⟩
      · rw [if_neg hb] at hw
        rcases List.mem_cons.mp hw with hw | hw
        · subst hw
          rw [List.mem_reverse] at hd
          exact ⟨hacc d hd, Or.inr hd⟩
        · have hres := ih [] true w hw (by intro x hx; cases hx) d hd
          rcases hres.2 with h | h
          · exact ⟨hres.1, Or.inl (List.mem_cons_of_mem _ h)⟩
          · cases h
    · rw [if_neg hp] at hw
      have hp' : p c0 = false := by
        revert hp
        cases p c0 <;> simp
      have hacc' : ∀ x ∈ c0 :: acc, p x = false := by
        intro x hx
        rcases List.mem_cons.mp hx with rfl | hx
        · exact hp'
        · exact hacc x hx
      have hres := ih (c0 :: acc) false w hw hacc' d hd
      refine ⟨hres.1, ?_⟩
      rcases hres.2 with h | h
      · exact Or.inl (List.mem_cons_of_mem _ h)
      · rcases List.mem_cons.mp h with rfl | h
        · exact Or.inl (List.mem_cons_self _ _)
        · exact Or.inr h

/-- No token of the lowercased, delimiter-split text passes any of the four
shape heuristics: the camelCase and PascalCase tests need an uppercase
letter (removed by lowercasing), and the file-extension and hyphen tests
need a `.` or `-` (both are delimiters and cannot appear inside a token). -/
theorem techShapeTest_false_on_lowered (text : String) (w : String)
    (hw : w ∈ jsSplitOn isDelimChar (jsToLowerStr text)) : techShapeTest w = false := by
  rw [jsSplitOn, List.mem_map] at hw
  obtain ⟨cs, hcs, hwcs⟩ := hw
  have hwdata : w.data = cs := by rw [← hwcs]
  have hchars : ∀ c ∈ w.data, isDelimChar c = false ∧ c ∈ (jsToLowerStr text).data := by
    intro c hc
    rw [hwdata] at hc
    have hres := jsSplitOnAux_token_chars isDelimChar (jsToLowerStr text).data [] false cs
      hcs (by intro x hx; cases hx) c hc
    exact ⟨hres.1, hres.2.elim id (fun h => absurd h (List.not_mem_nil c))⟩
  have hupper : ∀ c ∈ w.data, isUpperAZ c = false := by
    intro c hc
    have h2 := (hchars c hc).2
    simp only [jsToLowerStr, List.mem_map] at h2
    obtain ⟨c0, _, rfl⟩ := h2
    exact jsCharLower_not_upper c0
  have hdelim : ∀ c ∈ w.data, isDelimChar c = false := fun c hc => (hchars c hc).1
  have hcamel : camelTest w = false := by
    unfold camelTest
    cases hdrop : w.data.dropWhile isLowerAZ with
    | nil => simp
    | cons d tl =>
      have hd : d ∈ w.data := by
        have hsub := (List.dropWhile_sublist (l := w.data) isLowerAZ).subset
        rw [hdrop] at hsub
        exact hsub (List.mem_cons_self d tl)
      simp [hupper d hd]
  have hpascal : pascalTest w = false := by
    unfold pascalTest
    cases hdata : w.data with
    | nil => simp
    | cons d tl =>
      have hd : d ∈ w.data := by
        rw [hdata]
        exact List.mem_cons_self d tl
      simp [hupper d hd]
  have hext : extTest w = false := by
    unfold extTest
    rw [List.any_eq_false]
    intro i _
    intro hcontra
    simp only [Bool.and_eq_true, decide_eq_true_eq] at hcontra
    obtain ⟨⟨-, -⟩, hdot⟩ := hcontra
    have hmem : ('.' : Char) ∈ w.data.reverse := List.get?_mem hdot
    rw [List.mem_reverse] at hmem
    exact absurd (hdelim '.' hmem) (by decide)
  have hhyphen : hyphenTest w = false := by
    unfold hyphenTest
    cases hdrop : w.data.dropWhile isLowerAZ with
    | nil => simp
    | cons d post =>
      have hd : d ∈ w.data := by
        have hsub := (List.dropWhile_sublist (l := w.data) isLowerAZ).subset
        rw [hdrop] at hsub
        exact hsub (List.mem_cons_self d post)
      by_cases hdd : d = '-'
      · subst hdd
        exact absurd (hdelim '-' hd) (by decide)
      · simp [hdd]
  simp [techShapeTest, hcamel, hpascal, hext, hhyphen]

/-- C8 amended: `extractTechKeywords` lowercases the text before splitting
it on delimiters that include `.` and `-`, so no token can ever match the
camelCase, PascalCase, file-extension or hyphenated-compound heuristics:
the returned keyword set is exactly the deduplicated vocabulary hits, and
in particular a camelCase- or PascalCase-shaped token of the text is *not*
returned (unless it happens to be a vocabulary hit). -/
theorem C8_amended_vocab_only :
    (∀ text : String, extractTechKeywords text =
      jsDedup (techKeywords.filter (fun keyword =>
        jsIncludes (jsToLowerStr text) (jsToLowerStr keyword)))) ∧
    (∀ text w, w ∈ jsSplitOn isDelimChar (jsToLowerStr text) → techShapeTest w = false) := by
  constructor
  · intro text
    by_cases h : text = ""
    · subst h; decide
    · have hpot : (jsSplitOn isDelimChar (jsToLowerStr text)).filter techShapeTest = [] := by
        rw [List.filter_eq_nil_iff]
        intro w hw
        rw [techShapeTest_false_on_lowered text w hw]
        simp
      simp only [extractTechKeywords, if_neg h, hpot, List.append_nil]
  · exact techShapeTest_false_on_lowered

/-- Witness for C8's amended statement at the camelCase-shaped text
`"zzXy"`. -/
theorem C8_amended_vocab_only_witness :
    extractTechKeywords "zzXy" =
      jsDedup (techKeywords.filter (fun keyword =>
        jsIncludes (jsToLowerStr "zzXy") (jsToLowerStr keyword))) ∧
    techShapeTest "zzxy" = false :=
  ⟨C8_amended_vocab_only.1 "zzXy", C8_amended_vocab_only.2 "zzXy" "zzxy" (by decide)⟩

/-! ## C10 — deduplication and trimming: helper lemmas and amended statement -/

/-- Everything `jsDedupAux` returns comes from its input list. -/
theorem jsDedupAux_subset (l : List String) :
    ∀ (seen : List String) (a : String), a ∈ jsDedupAux l seen → a ∈ l := by
  induction l with
  | nil => intro seen a ha; simp [jsDedupAux] at ha
  | cons x xs ih =>
    intro seen a ha
    rw [jsDedupAux] at ha
    by_cases hc : seen.contains x = true
    · rw [if_pos hc] at ha
      exact List.mem_cons_of_mem _ (ih seen a ha)
    · rw [if_neg hc] at ha
      rcases List.mem_cons.mp ha with rfl | ha
      · exact List.mem_cons_self _ _
      · exact List.mem_cons_of_mem _ (ih (x :: seen) a ha)

/-- Nothing `jsDedupAux` returns was already seen. -/
theorem jsDedupAux_not_mem_seen (l : List String) :
    ∀ (seen : List String) (a : String), a ∈ jsDedupAux l seen → a ∉ seen := by
  induction l with
  | nil => intro seen a ha; simp [jsDedupAux] at ha
  | cons x xs ih =>
    intro seen a ha
    rw [jsDedupAux] at ha
    by_cases hc : seen.contains x = true
    · rw [if_pos hc] at ha
      exact ih seen a ha
    · rw [if_neg hc] at ha
      rcases List.mem_cons.mp ha with rfl | ha
      · intro hmem
        exact hc (by simpa using hmem)
      · intro hmem
        exact ih (x :: seen) a ha (List.mem_cons_of_mem _ hmem)

/-- The output of `jsDedupAux` has no duplicates. -/
theorem jsDedupAux_nodup (l : List String) :
    ∀ seen : List String, (jsDedupAux l seen).Nodup := by
  induction l with
  | nil => intro seen; simp [jsDedupAux]
  | cons x xs ih =>
    intro seen
    rw [jsDedupAux]
    by_cases hc : seen.contains x = true
    · rw [if_pos hc]
      exact ih seen
    · rw [if_neg hc]
      refine List.nodup_cons.mpr ⟨?_, ih (x :: seen)⟩
      intro hmem
      exact jsDedupAux_not_mem_seen xs (x :: seen) x hmem (List.mem_cons_self _ _)

/-- The head of a `dropWhile` result fails the predicate. -/
theorem dropWhile_head_false {α : Type} (p : α → Bool) (l : List α) (c : α) (t : List α)
    (h : l.dropWhile p = c :: t) : p c = false := by
  induction l with
  | nil => simp at h
  | cons a l' ih =>
    rw [List.dropWhile_cons] at h
    by_cases hp : p a = true
    · rw [if_pos hp] at h
      exact ih h
    · rw [if_neg hp] at h
      injection h with h1 _
      subst h1
      revert hp
      cases p a <;> simp

/-- Lemma: `dropWhile` is idempotent. -/
theorem dropWhile_idem {α : Type} (p : α → Bool) (l : List α) :
    (l.dropWhile p).dropWhile p = l.dropWhile p := by
  cases h : l.dropWhile p with
  | nil => simp
  | cons c t =>
    have hc := dropWhile_head_false p l c t h
    exact List.dropWhile_cons_of_neg (by simp [hc])

/-- Trimming a character list (drop leading whitespace, then trailing
whitespace) is idempotent. -/
theorem trimmed_chars_idem (l : List Char) :
    (((((l.dropWhile Char.isWhitespace).reverse.dropWhile Char.isWhitespace).reverse).dropWhile
        Char.isWhitespace).reverse.dropWhile Char.isWhitespace).reverse =
      ((l.dropWhile Char.isWhitespace).reverse.dropWhile Char.isWhitespace).reverse := by
  have h1 : (((l.dropWhile Char.isWhitespace).reverse.dropWhile Char.isWhitespace).reverse).dropWhile
      Char.isWhitespace =
      ((l.dropWhile Char.isWhitespace).reverse.dropWhile Char.isWhitespace).reverse := by
    cases hB : ((l.dropWhile Char.isWhitespace).reverse.dropWhile Char.isWhitespace).reverse with
    | nil => simp
    | cons c t =>
      have hsuf : (l.dropWhile Char.isWhitespace).reverse.dropWhile Char.isWhitespace <:+
          (l.dropWhile Char.isWhitespace).reverse := List.dropWhile_suffix _
      have hpre : ((l.dropWhile Char.isWhitespace).reverse.dropWhile Char.isWhitespace).reverse <+:
          l.dropWhile Char.isWhitespace := by
        have hrev := List.reverse_prefix.mpr hsuf
        rwa [List.reverse_reverse] at hrev
      rw [hB] at hpre
      obtain ⟨t2, ht2⟩ := hpre
      have hA : l.dropWhile Char.isWhitespace = c :: (t ++ t2) := by
        rw [← ht2]
        simp
      have hc := dropWhile_head_false Char.isWhitespace l c (t ++ t2) hA
      exact List.dropWhile_cons_of_neg (by simp [hc])
  rw [h1]
  have h2 : (((l.dropWhile Char.isWhitespace).reverse.dropWhile
      Char.isWhitespace).reverse).reverse.dropWhile Char.isWhitespace =
      ((l.dropWhile Char.isWhitespace).reverse.dropWhile Char.isWhitespace) := by
    rw [List.reverse_reverse]
    exact dropWhile_idem _ _
  rw [h2]

/-- Lemma: `jsTrim` is idempotent. -/
theorem jsTrim_idem (s : String) : jsTrim (jsTrim s) = jsTrim s := by
  unfold jsTrim
  congr 1
  exact trimmed_chars_idem s.data

/-- C10 amended: every extracted skill set is deduplicated by *exact*
string equality (entries differing only in letter case are both kept — see
the counterexample), and every entry is a trimmed, non-empty string. -/
theorem C10_amended_dedup_trim (obj : RecordObj) :
    (extractSkills obj).Nodup ∧
    ∀ s ∈ extractSkills obj, s ≠ "" ∧ jsTrim s = s := by
  constructor
  · exact jsDedupAux_nodup _ []
  · intro s hs
    simp only [extractSkills, jsDedup] at hs
    have h1 := jsDedupAux_subset _ [] s hs
    rw [List.mem_filter] at h1
    obtain ⟨h2, h3⟩ := h1
    refine ⟨by simpa using h3, ?_⟩
    rw [List.mem_map] at h2
    obtain ⟨x, _, hx⟩ := h2
    rw [← hx]
    exact jsTrim_idem x

/-- Witness for C10's amended statement at the case-duplicated profile. -/
theorem C10_amended_dedup_trim_witness :
    (extractSkills profileDupCase).Nodup ∧
    (("React" : String) ≠ "" ∧ jsTrim "React" = "React") :=
  ⟨(C10_amended_dedup_trim profileDupCase).1,
   (C10_amended_dedup_trim profileDupCase).2 "React" (by decide)⟩
